import Mathlib

/-!
# The CoreFoundation benchmark driver `core_foundation_parser.c`

A shallow embedding of `tools/performance/core_foundation_parser.c`.
The program loads one file into a `CFData`, then calls
`createPropertyListWithData` on it `times` times, stopping at the first
failure.

Everything the program obtains from outside itself (libc's `strtol` and the
CoreFoundation calls) is a field of `World`.  A call whose answer may differ
from one call to the next (`CFReadStreamOpen`,
`CFPropertyListCreateFromStream`) is an oracle indexed by the number of earlier
calls of the same function; that number is kept in the `State`, which also
holds the trace of the observable actions in the order they happen.
-/

namespace CoreFoundationParser

/-! ## Data model -/

/-- Contents of a (non-null) `CFDataRef`: the bytes it holds.  `CFDataGetBytePtr`
is the list itself and `CFDataGetLength` is its length. -/
abbrev CFData := List UInt8

/-- Non-null `CFPropertyListRef`, an opaque handle: the driver only tests it
against `NULL`. -/
abbrev CFPropertyList := Nat

/-- Result of `CFURLCreateWithFileSystemPath` with `kCFURLPOSIXPathStyle`,
not a directory. -/
structure CFURL where
  path : String
  deriving DecidableEq, Repr

/-- The two standard output streams of `<stdio.h>`. -/
inductive File where
  | stdout
  | stderr
  deriving DecidableEq, Repr

/-- Observable actions of a run, one per call that leaves the program.
`CFRelease` and the construction of the `CFString`/`CFURL` objects only manage
memory and are not recorded. -/
inductive Event where
  | fprintf (stream : File) (text : String)
  | urlCreateData (url : CFURL)
  | readStreamCreate (bytes : CFData) (length : Nat)
  | readStreamOpen
  | propertyListCreateFromStream (bytes : CFData)
  | readStreamClose
  deriving DecidableEq, Repr

/-- Everything outside the program.
* `strtol s` is libc's `strtol(s, NULL, 10)`;
* `CFURLCreateDataAndPropertiesFromResource url` is the `Boolean` result and the
  value stored through `&resourceData`;
* `CFReadStreamOpen n` is the result of the call of `CFReadStreamOpen` that
  follows `n` earlier ones;
* `CFPropertyListCreateFromStream n bytes` is the result of the call of
  `CFPropertyListCreateFromStream` that follows `n` earlier ones, on a stream
  over `bytes` (`none` is `NULL`). -/
structure World where
  strtol : String → Int
  CFURLCreateDataAndPropertiesFromResource : CFURL → Bool × Option CFData
  CFReadStreamOpen : Nat → Bool
  CFPropertyListCreateFromStream : Nat → CFData → Option CFPropertyList

/-- Program state threaded through the functions: the trace so far and the
number of calls made so far to the two oracles. -/
structure State where
  trace : List Event := []
  opens : Nat := 0
  creates : Nat := 0
  deriving DecidableEq, Repr

/-- Argument vector of a hosted C program: `argv[0]` is the program name followed
by `argc - 1` arguments, so `argc ≥ 1`. -/
structure Argv where
  prog : String
  args : List String
  deriving DecidableEq, Repr

/-- Number of entries, `argc`. -/
def Argv.argc (argv : Argv) : Nat := argv.args.length + 1

/-- Entry `argv[i]`; only read below `argc`. -/
def Argv.get (argv : Argv) : Nat → String
  | 0 => argv.prog
  | i + 1 => argv.args.getD i ""

/-- Append one action to the trace. -/
def State.emit (s : State) (e : Event) : State :=
  { s with trace := s.trace ++ [e] }

/-! ## The program -/

/-- Lines 13-38. The stream is created over the bytes and length of
`resourceData`; when it does not open, a diagnostic is printed and `NULL`
returned; otherwise the result of `CFPropertyListCreateFromStream` is returned
after closing the stream.  The stream object itself is taken to be created: the
source passes it to `CFReadStreamOpen` without a test. -/
def createPropertyListWithData (w : World) (resourceData : CFData) (s : State) :
    Option CFPropertyList × State :=
  let s := s.emit (.readStreamCreate resourceData resourceData.length)
  let opened := w.CFReadStreamOpen s.opens
  let s := { s.emit .readStreamOpen with opens := s.opens + 1 }
  if !opened then
    (none, s.emit (.fprintf .stderr "Failed to open resource\n"))
  else
    let propertyList := w.CFPropertyListCreateFromStream s.creates resourceData
    let s := { s.emit (.propertyListCreateFromStream resourceData) with creates := s.creates + 1 }
    let s := s.emit .readStreamClose
    (propertyList, s)

/-- Lines 41-49. -/
def createURLWithCStringFileSystemPath (filepath : String) : CFURL :=
  { path := filepath }

/-- Lines 51-62: `result ? resourceData : NULL`. -/
def createDataFromResource (w : World) (filepath : String) (s : State) :
    Option CFData × State :=
  let fileURL := createURLWithCStringFileSystemPath filepath
  let r := w.CFURLCreateDataAndPropertiesFromResource fileURL
  let s := s.emit (.urlCreateData fileURL)
  (if r.1 then r.2 else none, s)

/-- Lines 87-97, the loop `for (i = 0; i < times; i++)` from counter value `i`.
The first component is `some rc` when the body executed `return rc`, and `none`
when the loop ran to its end.  `i < times` bounds `i + 1` by `times`, so the
`long` counter never overflows. -/
def mainLoop (w : World) (filepath : String) (resourceData : CFData) (times : Int)
    (i : Int) (s : State) : Option Int × State :=
  if i < times then
    match createPropertyListWithData w resourceData s with
    | (none, s) =>
      (some (-1),
        s.emit (.fprintf .stderr ("Failed to create property list from file " ++ filepath ++ "\n")))
    | (some _, s) => mainLoop w filepath resourceData times (i + 1) s
  else
    (none, s)
termination_by (times - i).toNat
decreasing_by omega

/-- Lines 65-101: the value returned by `main` and the final state. -/
def main (w : World) (argv : Argv) : Int × State :=
  let s : State := {}
  if argv.argc < 3 then
    (-1, s.emit (.fprintf .stderr ("Usage: " ++ argv.get 0 ++ " <filepath> <times>\n")))
  else
    let filepath := argv.get 1
    let times := w.strtol (argv.get 2)
    match createDataFromResource w filepath s with
    | (none, s) =>
      (-1, s.emit (.fprintf .stderr ("Failed to read contents from file " ++ filepath ++ "\n")))
    | (some resourceData, s) =>
      match mainLoop w filepath resourceData times 0 s with
      | (some rc, s) => (rc, s)
      | (none, s) => (0, s)

/-! ## Observations on a trace -/

/-- Texts written to `stream`, in order. -/
def written (stream : File) (t : List Event) : List String :=
  t.filterMap fun e =>
    match e with
    | .fprintf f text => if f = stream then some text else none
    | _ => none

/-- Number of calls of `createPropertyListWithData`: each starts by creating its
read stream. -/
def parseCalls (t : List Event) : Nat :=
  t.countP fun e =>
    match e with
    | .readStreamCreate _ _ => true
    | _ => false

/-- Number of calls of `CFPropertyListCreateFromStream`. -/
def deserializerCalls (t : List Event) : Nat :=
  t.countP fun e =>
    match e with
    | .propertyListCreateFromStream _ => true
    | _ => false

/-- Number of calls of `CFURLCreateDataAndPropertiesFromResource`. -/
def loadCalls (t : List Event) : Nat :=
  t.countP fun e =>
    match e with
    | .urlCreateData _ => true
    | _ => false

/-! ## Trace fragments used to describe runs -/

/-- One iteration succeeded at call `j` of both oracles: the stream opened and the
deserializer returned a non-null property list. -/
def iterationSucceeds (w : World) (resourceData : CFData) (j : Nat) : Bool :=
  w.CFReadStreamOpen j && (w.CFPropertyListCreateFromStream j resourceData).isSome

/-- Actions of one call of `createPropertyListWithData` whose stream opened. -/
def openedIteration (resourceData : CFData) : List Event :=
  [.readStreamCreate resourceData resourceData.length, .readStreamOpen,
   .propertyListCreateFromStream resourceData, .readStreamClose]

/-- Actions of one call of `createPropertyListWithData` whose stream did not open. -/
def unopenedIteration (resourceData : CFData) : List Event :=
  [.readStreamCreate resourceData resourceData.length, .readStreamOpen,
   .fprintf .stderr "Failed to open resource\n"]

/-- Actions of `k` iterations whose stream opened. -/
def openedIterations (resourceData : CFData) : Nat → List Event
  | 0 => []
  | k + 1 => openedIteration resourceData ++ openedIterations resourceData k

/-- Diagnostic of `main` for a failed iteration. -/
def parseFailureMessage (filepath : String) : String :=
  "Failed to create property list from file " ++ filepath ++ "\n"

/-- Diagnostic of `main` for a wrong argument count. -/
def usageMessage (argv : Argv) : String :=
  "Usage: " ++ argv.get 0 ++ " <filepath> <times>\n"

/-- Diagnostic of `main` for a file that did not load. -/
def loadFailureMessage (filepath : String) : String :=
  "Failed to read contents from file " ++ filepath ++ "\n"

/-- Value `createDataFromResource` returns for `argv[1]` (`none` is `NULL`). -/
def loaded (w : World) (argv : Argv) : Option CFData :=
  (createDataFromResource w (argv.get 1) {}).1

/-- Actions of the iteration that fails at call `k`. -/
def failedIteration (w : World) (resourceData : CFData) (k : Nat) : List Event :=
  if w.CFReadStreamOpen k then openedIteration resourceData else unopenedIteration resourceData

/-- Bytes handed to `CFReadStreamCreateWithBytesNoCopy`, with the length handed
alongside, one entry per call in order. -/
def handedBuffers (t : List Event) : List (CFData × Nat) :=
  t.filterMap fun e =>
    match e with
    | .readStreamCreate bytes length => some (bytes, length)
    | _ => none

/-- Bytes under the stream given to `CFPropertyListCreateFromStream`, one entry
per call in order. -/
def deserializedBuffers (t : List Event) : List CFData :=
  t.filterMap fun e =>
    match e with
    | .propertyListCreateFromStream bytes => some bytes
    | _ => none

/-! ## The conversion of `<times>`

`strtol` belongs to libc, not to the program.  The definitions below state what
ISO C (7.22.1.4) prescribes for `strtol(s, NULL, 10)` in the "C" locale with a
64-bit `long`, so that the wording of the specification can be compared with
it. -/

/-- White space of the "C" locale: space, and `\t \n \v \f \r` (codes 9 to 13). -/
def isspace (c : Char) : Bool :=
  c.toNat = 32 || (9 ≤ c.toNat && c.toNat ≤ 13)

/-- Decimal digits, codes 48 to 57. -/
def isdigit (c : Char) : Bool :=
  48 ≤ c.toNat && c.toNat ≤ 57

/-- Base-10 value of a run of digits. -/
def digitsValue (ds : List Char) : Nat :=
  ds.foldl (fun acc c => 10 * acc + (c.toNat - 48)) 0

/-- Largest `long` (LP64). -/
def LONG_MAX : Int := 2 ^ 63 - 1

/-- Smallest `long` (LP64). -/
def LONG_MIN : Int := -(2 ^ 63)

/-- ISO C `strtol(s, NULL, 10)`: skip leading white space, take one optional sign
(`-` is code 45, `+` is code 43), convert the longest run of digits that follows,
negate after `-`, and limit the result to the range of `long`.  No digits give 0. -/
def strtol (s : String) : Int :=
  let cs := s.toList.dropWhile isspace
  let sign := cs.head?.map Char.toNat
  let ds := if sign = some 45 ∨ sign = some 43 then cs.tail else cs
  let v : Int := digitsValue (ds.takeWhile isdigit)
  let v := if sign = some 45 then -v else v
  if v < LONG_MIN then LONG_MIN else if LONG_MAX < v then LONG_MAX else v

/-- The longest leading run of decimal digits of the string, in the words of the
specification: conversion stops at the first non-digit. -/
def leadingDigits (s : String) : List Char :=
  s.toList.takeWhile isdigit

/-- The specification's conversion rule: the base-10 value of the longest leading
run of decimal digits, 0 when there is none. -/
def leadingDigitsValue (s : String) : Nat :=
  digitsValue (leadingDigits s)

/-! ## Sample inputs -/

/-- Eight bytes, `<plist/>`. -/
def sampleBytes : CFData := [60, 112, 108, 105, 115, 116, 47, 62]

/-- Three bytes, `<pl`. -/
def truncatedBytes : CFData := [60, 112, 108]

/-- World with two readable files: `valid.plist` always deserializes,
`corrupt.plist` never does (the deserializer here rejects anything shorter than
eight bytes); every stream opens; `<times>` is converted by `strtol`. -/
def sampleWorld : World where
  strtol := strtol
  CFURLCreateDataAndPropertiesFromResource := fun url =>
    if url.path = "valid.plist" then (true, some sampleBytes)
    else if url.path = "corrupt.plist" then (true, some truncatedBytes)
    else (false, none)
  CFReadStreamOpen := fun _ => true
  CFPropertyListCreateFromStream := fun n bytes => if 8 ≤ bytes.length then some n else none

/-- As `sampleWorld`, but the third `CFReadStreamOpen` and all later ones fail. -/
def unopenableWorld : World :=
  { sampleWorld with CFReadStreamOpen := fun n => decide (n < 2) }

/-- Scenario `prog valid.plist 5`. -/
def validFive : Argv := ⟨"prog", ["valid.plist", "5"]⟩

/-- Scenario `prog corrupt.plist 10`. -/
def corruptTen : Argv := ⟨"prog", ["corrupt.plist", "10"]⟩

/-- Scenario `prog missing.plist 3`. -/
def missingThree : Argv := ⟨"prog", ["missing.plist", "3"]⟩

/-- Scenario `prog`, no arguments. -/
def noArguments : Argv := ⟨"prog", []⟩

/-- Four entries: `prog valid.plist 0 extra`. -/
def fourEntries : Argv := ⟨"prog", ["valid.plist", "0", "extra"]⟩

/-- A signed count: `prog valid.plist +2`. -/
def signedTwo : Argv := ⟨"prog", ["valid.plist", "+2"]⟩

/-- A negative count: `prog valid.plist -5`. -/
def negativeFive : Argv := ⟨"prog", ["valid.plist", "-5"]⟩

/-- A count followed by a letter: `prog valid.plist 3x`. -/
def threeThenLetter : Argv := ⟨"prog", ["valid.plist", "3x"]⟩

/-! ## The loop, step by step -/

theorem createPropertyListWithData_unopened (w : World) (d : CFData) (t : List Event)
    (o c : Nat) (h : w.CFReadStreamOpen o = false) :
    createPropertyListWithData w d ⟨t, o, c⟩ = (none, ⟨t ++ unopenedIteration d, o + 1, c⟩) := by
  simp [createPropertyListWithData, State.emit, h, unopenedIteration]

theorem createPropertyListWithData_opened (w : World) (d : CFData) (t : List Event)
    (o c : Nat) (h : w.CFReadStreamOpen o = true) :
    createPropertyListWithData w d ⟨t, o, c⟩
      = (w.CFPropertyListCreateFromStream c d, ⟨t ++ openedIteration d, o + 1, c + 1⟩) := by
  simp [createPropertyListWithData, State.emit, h, openedIteration]

theorem mainLoop_done (w : World) (fp : String) (d : CFData) (times i : Int) (s : State)
    (h : ¬ i < times) : mainLoop w fp d times i s = (none, s) := by
  rw [mainLoop]; simp [h]

theorem mainLoop_unopened (w : World) (fp : String) (d : CFData) (times i : Int)
    (t : List Event) (o c : Nat) (hi : i < times) (h : w.CFReadStreamOpen o = false) :
    mainLoop w fp d times i ⟨t, o, c⟩
      = (some (-1), ⟨t ++ unopenedIteration d ++ [.fprintf .stderr (parseFailureMessage fp)],
          o + 1, c⟩) := by
  rw [mainLoop, createPropertyListWithData_unopened w d t o c h]
  simp [hi, State.emit, parseFailureMessage]

theorem mainLoop_null (w : World) (fp : String) (d : CFData) (times i : Int)
    (t : List Event) (o c : Nat) (hi : i < times) (h : w.CFReadStreamOpen o = true)
    (hn : w.CFPropertyListCreateFromStream c d = none) :
    mainLoop w fp d times i ⟨t, o, c⟩
      = (some (-1), ⟨t ++ openedIteration d ++ [.fprintf .stderr (parseFailureMessage fp)],
          o + 1, c + 1⟩) := by
  rw [mainLoop, createPropertyListWithData_opened w d t o c h, hn]
  simp [hi, State.emit, parseFailureMessage]

theorem mainLoop_step (w : World) (fp : String) (d : CFData) (times i : Int)
    (t : List Event) (o c : Nat) (hi : i < times) (h : w.CFReadStreamOpen o = true)
    (hs : (w.CFPropertyListCreateFromStream c d).isSome = true) :
    mainLoop w fp d times i ⟨t, o, c⟩
      = mainLoop w fp d times (i + 1) ⟨t ++ openedIteration d, o + 1, c + 1⟩ := by
  obtain ⟨p, hp⟩ := Option.isSome_iff_exists.mp hs
  rw [mainLoop, createPropertyListWithData_opened w d t o c h, hp]
  simp [hi]

theorem mainLoop_skip (w : World) (fp : String) (d : CFData) (times : Int) (k : Nat) :
    ∀ (i : Int) (t : List Event) (o c : Nat), i + k ≤ times →
      (∀ j, j < k → w.CFReadStreamOpen (o + j) = true ∧
        (w.CFPropertyListCreateFromStream (c + j) d).isSome = true) →
      mainLoop w fp d times i ⟨t, o, c⟩
        = mainLoop w fp d times (i + k) ⟨t ++ openedIterations d k, o + k, c + k⟩ := by
  induction k with
  | zero => intro i t o c _ _; simp [openedIterations]
  | succ k ih =>
    intro i t o c hik hok
    have h0 := hok 0 (Nat.succ_pos k)
    rw [mainLoop_step w fp d times i t o c (by push_cast at hik; omega) h0.1 h0.2]
    rw [ih (i + 1) _ (o + 1) (c + 1) (by push_cast at hik; omega)
      (fun j hj => by
        have := hok (j + 1) (Nat.succ_lt_succ hj)
        simpa [Nat.add_assoc, Nat.add_comm 1 j] using this)]
    simp only [openedIterations, List.append_assoc, Nat.cast_succ]
    congr 1
    · omega
    · simp only [Nat.add_assoc, Nat.add_comm 1 k]

/-- Either the first `n` values of `p` are all true, or there is a first false one. -/
theorem first_false (p : Nat → Bool) (n : Nat) :
    (∀ j, j < n → p j = true) ∨ ∃ k, k < n ∧ (∀ j, j < k → p j = true) ∧ p k = false := by
  induction n with
  | zero => left; intro j hj; omega
  | succ n ih =>
    rcases ih with h | ⟨k, hk, hlt, hf⟩
    · cases hp : p n with
      | true =>
        left; intro j hj
        rcases Nat.lt_succ_iff_lt_or_eq.mp hj with h1 | h1
        · exact h j h1
        · rw [h1]; exact hp
      | false => exact Or.inr ⟨n, Nat.lt_succ_self n, h, hp⟩
    · exact Or.inr ⟨k, Nat.lt_succ_of_lt hk, hlt, hf⟩

theorem iterationSucceeds_iff (w : World) (d : CFData) (j : Nat) :
    iterationSucceeds w d j = true ↔
      w.CFReadStreamOpen j = true ∧ (w.CFPropertyListCreateFromStream j d).isSome = true := by
  simp [iterationSucceeds]

/-- The loop from `i = 0` on a fresh pair of oracles when every iteration succeeds. -/
theorem mainLoop_all (w : World) (fp : String) (d : CFData) (times : Int) (t : List Event)
    (h : ∀ j, j < times.toNat → iterationSucceeds w d j = true) :
    mainLoop w fp d times 0 ⟨t, 0, 0⟩
      = (none, ⟨t ++ openedIterations d times.toNat, times.toNat, times.toNat⟩) := by
  have hs := mainLoop_skip w fp d times times.toNat 0 t 0 0
  by_cases hneg : times ≤ 0
  · have h0 : times.toNat = 0 := by omega
    rw [mainLoop_done w fp d times 0 _ (by omega), h0]
    simp [openedIterations]
  · rw [hs (by omega) (fun j hj => by
      simpa using (iterationSucceeds_iff w d j).mp (h j hj))]
    rw [mainLoop_done w fp d times _ _ (by omega)]
    simp

/-- The loop from `i = 0` on a fresh pair of oracles when iteration `k` is the
first that fails. -/
theorem mainLoop_first (w : World) (fp : String) (d : CFData) (times : Int) (t : List Event)
    (k : Nat) (hk : k < times.toNat) (h : ∀ j, j < k → iterationSucceeds w d j = true)
    (hf : iterationSucceeds w d k = false) :
    mainLoop w fp d times 0 ⟨t, 0, 0⟩
      = (some (-1),
          ⟨t ++ openedIterations d k
              ++ (if w.CFReadStreamOpen k then openedIteration d else unopenedIteration d)
              ++ [.fprintf .stderr (parseFailureMessage fp)],
           k + 1, if w.CFReadStreamOpen k then k + 1 else k⟩) := by
  rw [mainLoop_skip w fp d times k 0 t 0 0 (by omega) (fun j hj => by
      simpa using (iterationSucceeds_iff w d j).mp (h j hj))]
  cases ho : w.CFReadStreamOpen k with
  | false =>
    rw [mainLoop_unopened w fp d times _ _ _ _ (by omega) (by simpa using ho)]
    simp
  | true =>
    have hn : w.CFPropertyListCreateFromStream (0 + k) d = none := by
      simpa [iterationSucceeds, ho] using hf
    rw [mainLoop_null w fp d times _ _ _ _ (by omega) (by simpa using ho) hn]
    simp

/-! ## The four shapes of a run of `main` -/

theorem createDataFromResource_eq (w : World) (fp : String) (s : State) :
    createDataFromResource w fp s
      = ((createDataFromResource w fp {}).1, ⟨s.trace ++ [.urlCreateData ⟨fp⟩], s.opens, s.creates⟩) :=
  rfl

theorem main_usage (w : World) (argv : Argv) (h : argv.argc < 3) :
    main w argv = (-1, ⟨[.fprintf .stderr (usageMessage argv)], 0, 0⟩) := by
  simp [main, h, State.emit, usageMessage]

theorem main_unloaded (w : World) (argv : Argv) (h : ¬ argv.argc < 3)
    (hl : loaded w argv = none) :
    main w argv
      = (-1, ⟨[.urlCreateData ⟨argv.get 1⟩,
               .fprintf .stderr (loadFailureMessage (argv.get 1))], 0, 0⟩) := by
  unfold loaded at hl
  unfold main
  simp only [if_neg h]
  rw [createDataFromResource_eq, hl]
  simp [h, State.emit, loadFailureMessage]

theorem main_all (w : World) (argv : Argv) (d : CFData) (h : ¬ argv.argc < 3)
    (hl : loaded w argv = some d)
    (hok : ∀ j, j < (w.strtol (argv.get 2)).toNat → iterationSucceeds w d j = true) :
    main w argv
      = (0, ⟨.urlCreateData ⟨argv.get 1⟩ :: openedIterations d (w.strtol (argv.get 2)).toNat,
             (w.strtol (argv.get 2)).toNat, (w.strtol (argv.get 2)).toNat⟩) := by
  unfold loaded at hl
  unfold main
  simp only [if_neg h]
  rw [createDataFromResource_eq, hl]
  simp [h, mainLoop_all w _ d _ _ hok]

theorem main_first (w : World) (argv : Argv) (d : CFData) (k : Nat) (h : ¬ argv.argc < 3)
    (hl : loaded w argv = some d) (hk : k < (w.strtol (argv.get 2)).toNat)
    (hok : ∀ j, j < k → iterationSucceeds w d j = true)
    (hf : iterationSucceeds w d k = false) :
    main w argv
      = (-1, ⟨.urlCreateData ⟨argv.get 1⟩ :: openedIterations d k ++ failedIteration w d k
                ++ [.fprintf .stderr (parseFailureMessage (argv.get 1))],
              k + 1, if w.CFReadStreamOpen k then k + 1 else k⟩) := by
  unfold loaded at hl
  unfold main
  simp only [if_neg h]
  rw [createDataFromResource_eq, hl]
  simp [h, mainLoop_first w _ d _ _ k hk hok hf, failedIteration]

/-- Every run of `main` has one of the four shapes above. -/
theorem main_cases (w : World) (argv : Argv) :
    (argv.argc < 3 ∧ main w argv = (-1, ⟨[.fprintf .stderr (usageMessage argv)], 0, 0⟩)) ∨
    (¬ argv.argc < 3 ∧ loaded w argv = none ∧
      main w argv = (-1, ⟨[.urlCreateData ⟨argv.get 1⟩,
        .fprintf .stderr (loadFailureMessage (argv.get 1))], 0, 0⟩)) ∨
    (∃ d, ¬ argv.argc < 3 ∧ loaded w argv = some d ∧
      (∀ j, j < (w.strtol (argv.get 2)).toNat → iterationSucceeds w d j = true) ∧
      main w argv
        = (0, ⟨.urlCreateData ⟨argv.get 1⟩ :: openedIterations d (w.strtol (argv.get 2)).toNat,
               (w.strtol (argv.get 2)).toNat, (w.strtol (argv.get 2)).toNat⟩)) ∨
    (∃ d k, ¬ argv.argc < 3 ∧ loaded w argv = some d ∧ k < (w.strtol (argv.get 2)).toNat ∧
      (∀ j, j < k → iterationSucceeds w d j = true) ∧ iterationSucceeds w d k = false ∧
      main w argv
        = (-1, ⟨.urlCreateData ⟨argv.get 1⟩ :: openedIterations d k ++ failedIteration w d k
                  ++ [.fprintf .stderr (parseFailureMessage (argv.get 1))],
                k + 1, if w.CFReadStreamOpen k then k + 1 else k⟩)) := by
  by_cases h : argv.argc < 3
  · exact Or.inl ⟨h, main_usage w argv h⟩
  · cases hl : loaded w argv with
    | none => exact Or.inr (Or.inl ⟨h, rfl, main_unloaded w argv h hl⟩)
    | some d =>
      rcases first_false (iterationSucceeds w d) (w.strtol (argv.get 2)).toNat with
        hok | ⟨k, hk, hok, hf⟩
      · exact Or.inr (Or.inr (Or.inl ⟨d, h, rfl, hok, main_all w argv d h hl hok⟩))
      · exact Or.inr (Or.inr (Or.inr
          ⟨d, k, h, rfl, hk, hok, hf, main_first w argv d k h hl hk hok hf⟩))

/-! ## Observations on the trace fragments -/

theorem written_append (f : File) (a b : List Event) :
    written f (a ++ b) = written f a ++ written f b := by
  simp [written, List.filterMap_append]

theorem parseCalls_append (a b : List Event) :
    parseCalls (a ++ b) = parseCalls a + parseCalls b := by
  simp [parseCalls, List.countP_append]

theorem deserializerCalls_append (a b : List Event) :
    deserializerCalls (a ++ b) = deserializerCalls a + deserializerCalls b := by
  simp [deserializerCalls, List.countP_append]

theorem loadCalls_append (a b : List Event) :
    loadCalls (a ++ b) = loadCalls a + loadCalls b := by
  simp [loadCalls, List.countP_append]

theorem written_openedIterations (f : File) (d : CFData) (k : Nat) :
    written f (openedIterations d k) = [] := by
  induction k with
  | zero => rfl
  | succ k ih => rw [openedIterations, written_append, ih]; simp [written, openedIteration]

theorem parseCalls_openedIterations (d : CFData) (k : Nat) :
    parseCalls (openedIterations d k) = k := by
  induction k with
  | zero => rfl
  | succ k ih =>
    rw [openedIterations, parseCalls_append, ih]; simp [parseCalls, openedIteration]; omega

theorem deserializerCalls_openedIterations (d : CFData) (k : Nat) :
    deserializerCalls (openedIterations d k) = k := by
  induction k with
  | zero => rfl
  | succ k ih =>
    rw [openedIterations, deserializerCalls_append, ih]
    simp [deserializerCalls, openedIteration]; omega

theorem loadCalls_openedIterations (d : CFData) (k : Nat) :
    loadCalls (openedIterations d k) = 0 := by
  induction k with
  | zero => rfl
  | succ k ih => rw [openedIterations, loadCalls_append, ih]; simp [loadCalls, openedIteration]

theorem parseCalls_failedIteration (w : World) (d : CFData) (k : Nat) :
    parseCalls (failedIteration w d k) = 1 := by
  unfold failedIteration; split <;> simp [parseCalls, openedIteration, unopenedIteration]

theorem loadCalls_failedIteration (w : World) (d : CFData) (k : Nat) :
    loadCalls (failedIteration w d k) = 0 := by
  unfold failedIteration; split <;> simp [loadCalls, openedIteration, unopenedIteration]

theorem deserializerCalls_failedIteration (w : World) (d : CFData) (k : Nat) :
    deserializerCalls (failedIteration w d k) = if w.CFReadStreamOpen k then 1 else 0 := by
  unfold failedIteration
  split <;> simp [deserializerCalls, openedIteration, unopenedIteration]

theorem written_stdout_failedIteration (w : World) (d : CFData) (k : Nat) :
    written .stdout (failedIteration w d k) = [] := by
  unfold failedIteration; split <;> simp [written, openedIteration, unopenedIteration]

theorem written_stderr_failedIteration (w : World) (d : CFData) (k : Nat) :
    written .stderr (failedIteration w d k)
      = if w.CFReadStreamOpen k then [] else ["Failed to open resource\n"] := by
  unfold failedIteration; split <;> simp [written, openedIteration, unopenedIteration]

theorem parseCalls_load_cons (u : CFURL) (t : List Event) :
    parseCalls (.urlCreateData u :: t) = parseCalls t := by
  simp [parseCalls]

theorem deserializerCalls_load_cons (u : CFURL) (t : List Event) :
    deserializerCalls (.urlCreateData u :: t) = deserializerCalls t := by
  simp [deserializerCalls]

theorem loadCalls_load_cons (u : CFURL) (t : List Event) :
    loadCalls (.urlCreateData u :: t) = loadCalls t + 1 := by
  simp [loadCalls]

theorem written_load_cons (f : File) (u : CFURL) (t : List Event) :
    written f (.urlCreateData u :: t) = written f t := by
  simp [written]

theorem parseCalls_fprintf (f : File) (m : String) : parseCalls [.fprintf f m] = 0 := by
  simp [parseCalls]

theorem deserializerCalls_fprintf (f : File) (m : String) :
    deserializerCalls [.fprintf f m] = 0 := by
  simp [deserializerCalls]

theorem loadCalls_fprintf (f : File) (m : String) : loadCalls [.fprintf f m] = 0 := by
  simp [loadCalls]

theorem written_stderr_fprintf (m : String) : written .stderr [.fprintf .stderr m] = [m] := by
  simp [written]

theorem written_stdout_fprintf (m : String) : written .stdout [.fprintf .stderr m] = [] := by
  simp [written]

/-- The result of the call of `createPropertyListWithData` made after `j` successful
ones is non-null exactly when `iterationSucceeds` says so. -/
theorem createPropertyListWithData_isSome (w : World) (d : CFData) (t : List Event) (j : Nat) :
    (createPropertyListWithData w d ⟨t, j, j⟩).1.isSome = iterationSucceeds w d j := by
  cases h : w.CFReadStreamOpen j with
  | false => rw [createPropertyListWithData_unopened w d t j j h]; simp [iterationSucceeds, h]
  | true => rw [createPropertyListWithData_opened w d t j j h]; simp [iterationSucceeds, h]

theorem handedBuffers_append (a b : List Event) :
    handedBuffers (a ++ b) = handedBuffers a ++ handedBuffers b := by
  simp [handedBuffers, List.filterMap_append]

theorem deserializedBuffers_append (a b : List Event) :
    deserializedBuffers (a ++ b) = deserializedBuffers a ++ deserializedBuffers b := by
  simp [deserializedBuffers, List.filterMap_append]

theorem mem_handedBuffers_openedIterations (d : CFData) (k : Nat) (p : CFData × Nat)
    (h : p ∈ handedBuffers (openedIterations d k)) : p = (d, d.length) := by
  induction k with
  | zero => simp [openedIterations, handedBuffers] at h
  | succ k ih =>
    rw [openedIterations, handedBuffers_append, List.mem_append] at h
    rcases h with h | h
    · simpa [handedBuffers, openedIteration] using h
    · exact ih h

theorem mem_deserializedBuffers_openedIterations (d : CFData) (k : Nat) (b : CFData)
    (h : b ∈ deserializedBuffers (openedIterations d k)) : b = d := by
  induction k with
  | zero => simp [openedIterations, deserializedBuffers] at h
  | succ k ih =>
    rw [openedIterations, deserializedBuffers_append, List.mem_append] at h
    rcases h with h | h
    · simpa [deserializedBuffers, openedIteration] using h
    · exact ih h

theorem mem_handedBuffers_failedIteration (w : World) (d : CFData) (k : Nat) (p : CFData × Nat)
    (h : p ∈ handedBuffers (failedIteration w d k)) : p = (d, d.length) := by
  unfold failedIteration at h
  split at h <;> simpa [handedBuffers, openedIteration, unopenedIteration] using h

theorem mem_deserializedBuffers_failedIteration (w : World) (d : CFData) (k : Nat) (b : CFData)
    (h : b ∈ deserializedBuffers (failedIteration w d k)) : b = d := by
  unfold failedIteration at h
  split at h <;> simp [deserializedBuffers, openedIteration, unopenedIteration] at h
  exact h

/-- One buffer is handed over per call of `createPropertyListWithData`. -/
theorem length_handedBuffers (t : List Event) : (handedBuffers t).length = parseCalls t := by
  induction t with
  | nil => rfl
  | cons e t ih =>
    have happ : e :: t = [e] ++ t := rfl
    rw [happ, handedBuffers_append, parseCalls_append, List.length_append, ih]
    cases e <;> simp [handedBuffers, parseCalls]

/-- In every run, each buffer handed to the stream constructor is the loaded one
with its own length. -/
theorem mem_handedBuffers_main (w : World) (argv : Argv) (p : CFData × Nat)
    (h : p ∈ handedBuffers (main w argv).2.trace) :
    loaded w argv = some p.1 ∧ p.2 = p.1.length := by
  rcases main_cases w argv with ⟨_, he⟩ | ⟨_, _, he⟩ | ⟨d, _, hl, _, he⟩ | ⟨d, k, _, hl, _, _, _, he⟩
  · rw [he] at h; simp [handedBuffers] at h
  · rw [he] at h; simp [handedBuffers] at h
  · rw [he] at h
    have hp : p = (d, d.length) := by
      apply mem_handedBuffers_openedIterations d (w.strtol (argv.get 2)).toNat
      simpa [handedBuffers] using h
    subst hp; exact ⟨hl, rfl⟩
  · rw [he] at h
    have hp : p = (d, d.length) := by
      have h2 : p ∈ handedBuffers (openedIterations d k) ∨
          p ∈ handedBuffers (failedIteration w d k) := by
        simpa [handedBuffers, List.filterMap_append] using h
      rcases h2 with h2 | h2
      · exact mem_handedBuffers_openedIterations d k p h2
      · exact mem_handedBuffers_failedIteration w d k p h2
    subst hp; exact ⟨hl, rfl⟩

/-- In every run, each stream given to the deserializer is over the loaded buffer. -/
theorem mem_deserializedBuffers_main (w : World) (argv : Argv) (b : CFData)
    (h : b ∈ deserializedBuffers (main w argv).2.trace) : loaded w argv = some b := by
  rcases main_cases w argv with ⟨_, he⟩ | ⟨_, _, he⟩ | ⟨d, _, hl, _, he⟩ | ⟨d, k, _, hl, _, _, _, he⟩
  · rw [he] at h; simp [deserializedBuffers] at h
  · rw [he] at h; simp [deserializedBuffers] at h
  · rw [he] at h
    have hb : b = d := by
      apply mem_deserializedBuffers_openedIterations d (w.strtol (argv.get 2)).toNat
      simpa [deserializedBuffers] using h
    subst hb; exact hl
  · rw [he] at h
    have hb : b = d := by
      have h2 : b ∈ deserializedBuffers (openedIterations d k) ∨
          b ∈ deserializedBuffers (failedIteration w d k) := by
        simpa [deserializedBuffers, List.filterMap_append] using h
      rcases h2 with h2 | h2
      · exact mem_deserializedBuffers_openedIterations d k b h2
      · exact mem_deserializedBuffers_failedIteration w d k b h2
    subst hb; exact hl

/-- The written `stderr` texts of a run whose iteration `k` fails. -/
theorem written_stderr_first (w : World) (d : CFData) (k : Nat) (u : CFURL) (m : String) :
    written .stderr (.urlCreateData u :: openedIterations d k ++ failedIteration w d k
        ++ [.fprintf .stderr m])
      = (if w.CFReadStreamOpen k then [] else ["Failed to open resource\n"]) ++ [m] := by
  simp only [List.cons_append, written_load_cons, written_append, written_openedIterations,
    written_stderr_failedIteration, written_stderr_fprintf, List.nil_append]

theorem written_stdout_first (w : World) (d : CFData) (k : Nat) (u : CFURL) (m : String) :
    written .stdout (.urlCreateData u :: openedIterations d k ++ failedIteration w d k
        ++ [.fprintf .stderr m]) = [] := by
  simp only [List.cons_append, written_load_cons, written_append, written_openedIterations,
    written_stdout_failedIteration, written_stdout_fprintf, List.nil_append]

theorem parseCalls_first (w : World) (d : CFData) (k : Nat) (u : CFURL) (m : String) :
    parseCalls (.urlCreateData u :: openedIterations d k ++ failedIteration w d k
        ++ [.fprintf .stderr m]) = k + 1 := by
  simp only [List.cons_append, parseCalls_load_cons, parseCalls_append,
    parseCalls_openedIterations, parseCalls_failedIteration, parseCalls_fprintf]

theorem deserializerCalls_first (w : World) (d : CFData) (k : Nat) (u : CFURL) (m : String) :
    deserializerCalls (.urlCreateData u :: openedIterations d k ++ failedIteration w d k
        ++ [.fprintf .stderr m]) = k + (if w.CFReadStreamOpen k then 1 else 0) := by
  simp only [List.cons_append, deserializerCalls_load_cons, deserializerCalls_append,
    deserializerCalls_openedIterations, deserializerCalls_failedIteration,
    deserializerCalls_fprintf, Nat.add_zero]

/-- On a string that starts with neither white space nor a sign, and whose leading
digit run fits a `long`, `strtol` is the value of that run. -/
theorem strtol_eq_leadingDigitsValue (s : String)
    (hfirst : ∀ c, s.toList.head? = some c →
      isspace c = false ∧ c.toNat ≠ 43 ∧ c.toNat ≠ 45)
    (hrange : (leadingDigitsValue s : Int) ≤ LONG_MAX) :
    strtol s = leadingDigitsValue s := by
  have hdrop : s.toList.dropWhile isspace = s.toList := by
    cases hs : s.toList with
    | nil => rfl
    | cons c r =>
      have hc := (hfirst c (by rw [hs]; rfl)).1
      simp [List.dropWhile, hc]
  have hsign : ¬ ((s.toList.head?.map Char.toNat = some 45) ∨
      (s.toList.head?.map Char.toNat = some 43)) := by
    cases hs : s.toList with
    | nil => simp
    | cons c r =>
      have hc := hfirst c (by rw [hs]; rfl)
      simp [hc.2.1, hc.2.2]
  have hminus : ¬ (s.toList.head?.map Char.toNat = some 45) := fun h => hsign (Or.inl h)
  unfold strtol
  simp only [hdrop, if_neg hsign, if_neg hminus]
  unfold leadingDigitsValue leadingDigits at hrange ⊢
  have hmin : ¬ ((digitsValue (s.toList.takeWhile isdigit) : Int) < LONG_MIN) := by
    unfold LONG_MIN; omega
  rw [if_neg hmin, if_neg (by omega)]

/-- Leading white space is skipped: ` 1` converts to 1 although it has no leading
digit. -/
theorem strtol_skips_white_space :
    leadingDigits " 1" = [] ∧ strtol " 1" = 1 := by
  decide

/-- A minus sign is honoured: `-5` converts to -5. -/
theorem strtol_negative : leadingDigits "-5" = [] ∧ strtol "-5" = -5 := by
  decide

/-- Values beyond the range of `long` are clamped. -/
theorem strtol_clamps :
    leadingDigitsValue "9223372036854775808" = 9223372036854775808 ∧
    strtol "9223372036854775808" = LONG_MAX ∧
    strtol "-9223372036854775809" = LONG_MIN := by
  decide

/-! ## The claims -/

/-- C1: with exactly three arguments, a file that loads and a `<times>` that converts
to `N ≥ 0`, if each of the first `N` calls of the parse operation returns a non-null
result, then `main` returns 0 after exactly `N` calls of `createPropertyListWithData`
(and `N` calls of the deserializer); for `N = 0` neither is called at all. -/
theorem main_parses_N_times (w : World) (argv : Argv) (d : CFData) (N : Int)
    (hargc : argv.argc = 3) (hload : loaded w argv = some d)
    (htimes : w.strtol (argv.get 2) = N) (hN : 0 ≤ N)
    (hok : ∀ j : Nat, (j : Int) < N → iterationSucceeds w d j = true) :
    (main w argv).1 = 0 ∧
    (parseCalls (main w argv).2.trace : Int) = N ∧
    (deserializerCalls (main w argv).2.trace : Int) = N ∧
    (N = 0 → parseCalls (main w argv).2.trace = 0 ∧
      deserializerCalls (main w argv).2.trace = 0) := by
  have hok2 : ∀ j, j < (w.strtol (argv.get 2)).toNat → iterationSucceeds w d j = true :=
    fun j hj => hok j (by omega)
  rw [main_all w argv d (by omega) hload hok2]
  simp only [parseCalls_load_cons, deserializerCalls_load_cons, parseCalls_openedIterations,
    deserializerCalls_openedIterations]
  refine ⟨trivial, by omega, by omega, fun h0 => ?_⟩
  constructor <;> omega

/-- C2: when the file loads, `<times>` converts to `N` and iteration `k < N` is the
first whose parse fails, `main` returns a non-zero status after exactly `k + 1` calls
of `createPropertyListWithData`; the trace ends with the failing call followed by
the diagnostic of `main`, so nothing is called after the failure. -/
theorem main_stops_at_first_failure (w : World) (argv : Argv) (d : CFData) (N : Int) (k : Nat)
    (hargc : ¬ argv.argc < 3) (hload : loaded w argv = some d)
    (htimes : w.strtol (argv.get 2) = N) (hk : (k : Int) < N)
    (hok : ∀ j, j < k → iterationSucceeds w d j = true)
    (hf : iterationSucceeds w d k = false) :
    (main w argv).1 ≠ 0 ∧
    parseCalls (main w argv).2.trace = k + 1 ∧
    ∃ before, parseCalls before = k ∧
      (main w argv).2.trace
        = before ++ failedIteration w d k
            ++ [.fprintf .stderr ("Failed to create property list from file "
                  ++ argv.get 1 ++ "\n")] := by
  rw [main_first w argv d k hargc hload (by omega) hok hf]
  refine ⟨by simp, ?_, .urlCreateData ⟨argv.get 1⟩ :: openedIterations d k, ?_, ?_⟩
  · simp only [List.cons_append, parseCalls_load_cons, parseCalls_append,
      parseCalls_openedIterations, parseCalls_failedIteration, parseCalls_fprintf]
  · simp only [parseCalls_load_cons, parseCalls_openedIterations]
  · rfl

/-- C3: when the argument count is accepted and `createDataFromResource` returns
`NULL` for `argv[1]`, then whatever `<times>` is, `main` returns a non-zero status,
writes to `stderr` a message that contains the path, and never calls
`createPropertyListWithData` or the deserializer. -/
theorem main_load_failure (w : World) (argv : Argv)
    (hargc : ¬ argv.argc < 3) (hload : loaded w argv = none) :
    (main w argv).1 ≠ 0 ∧
    (∃ m, m ∈ written .stderr (main w argv).2.trace ∧
      ∃ before after, m = before ++ argv.get 1 ++ after) ∧
    parseCalls (main w argv).2.trace = 0 ∧
    deserializerCalls (main w argv).2.trace = 0 := by
  rw [main_unloaded w argv hargc hload]
  refine ⟨by simp, ⟨loadFailureMessage (argv.get 1), ?_,
    "Failed to read contents from file ", "\n", rfl⟩, ?_, ?_⟩
  · simp [written]
  · simp [parseCalls]
  · simp [deserializerCalls]

/-- C4, amended: for every argument count below 3, `main` writes the usage message
to `stderr`, returns a non-zero status and never calls the loader. -/
theorem main_usage_error (w : World) (argv : Argv) (hargc : argv.argc < 3) :
    written .stderr (main w argv).2.trace
      = ["Usage: " ++ argv.get 0 ++ " <filepath> <times>\n"] ∧
    (main w argv).1 ≠ 0 ∧
    loadCalls (main w argv).2.trace = 0 := by
  rw [main_usage w argv hargc]
  refine ⟨?_, by simp, ?_⟩
  · simp [written, usageMessage]
  · simp [loadCalls]

/-- C5: the value `main` returns is 0 or -1, and it is 0 exactly when the argument
count was accepted, the file loaded, and every call of the parse operation that
was made returned a non-null result. -/
theorem main_exit_status (w : World) (argv : Argv) :
    ((main w argv).1 = 0 ∨ (main w argv).1 = -1) ∧
    ((main w argv).1 = 0 ↔
      ¬ argv.argc < 3 ∧ ∃ d, loaded w argv = some d ∧
        ∀ j, j < parseCalls (main w argv).2.trace → iterationSucceeds w d j = true) := by
  rcases main_cases w argv with ⟨ha, he⟩ | ⟨_, hl, he⟩ | ⟨d, ha, hl, hok, he⟩ |
    ⟨d, k, _, hl, _, _, hf, he⟩
  · rw [he]
    refine ⟨Or.inr rfl, ?_⟩
    constructor
    · intro h; simp at h
    · rintro ⟨h, _⟩; exact absurd ha h
  · rw [he]
    refine ⟨Or.inr rfl, ?_⟩
    constructor
    · intro h; simp at h
    · rintro ⟨_, d, hd, _⟩; rw [hl] at hd; cases hd
  · rw [he]
    refine ⟨Or.inl rfl, ?_⟩
    constructor
    · intro _
      refine ⟨ha, d, hl, fun j hj => hok j ?_⟩
      simpa only [parseCalls_load_cons, parseCalls_openedIterations] using hj
    · intro _; rfl
  · rw [he]
    refine ⟨Or.inr rfl, ?_⟩
    constructor
    · intro h; simp at h
    · rintro ⟨_, d2, hd, hall⟩
      rw [hl] at hd
      cases hd
      have := hall k (by rw [parseCalls_first]; exact Nat.lt_succ_self k)
      rw [hf] at this
      cases this

/-- C7: in every run the loader is called at most once; each parse call hands one
buffer to the stream constructor, and every such buffer is the buffer the loader
returned, with that buffer's length, so any two of them are identical; every stream
given to the deserializer is over that same buffer; and if a parse call is made at
all, the single loader call is the first action of the run. -/
theorem main_buffer_identical (w : World) (argv : Argv) :
    loadCalls (main w argv).2.trace ≤ 1 ∧
    (handedBuffers (main w argv).2.trace).length = parseCalls (main w argv).2.trace ∧
    (∀ p, p ∈ handedBuffers (main w argv).2.trace →
      loaded w argv = some p.1 ∧ p.2 = p.1.length) ∧
    (∀ p q, p ∈ handedBuffers (main w argv).2.trace →
      q ∈ handedBuffers (main w argv).2.trace → p = q) ∧
    (∀ b, b ∈ deserializedBuffers (main w argv).2.trace → loaded w argv = some b) ∧
    (0 < parseCalls (main w argv).2.trace →
      ∃ rest, (main w argv).2.trace = .urlCreateData ⟨argv.get 1⟩ :: rest ∧
        loadCalls rest = 0) := by
  refine ⟨?_, length_handedBuffers _, mem_handedBuffers_main w argv, ?_,
    mem_deserializedBuffers_main w argv, ?_⟩
  · rcases main_cases w argv with ⟨_, he⟩ | ⟨_, _, he⟩ | ⟨d, _, _, _, he⟩ | ⟨d, k, _, _, _, _, _, he⟩
    · rw [he]; simp [loadCalls]
    · rw [he]; simp [loadCalls]
    · rw [he]; simp only [loadCalls_load_cons, loadCalls_openedIterations]; omega
    · rw [he]
      simp only [List.cons_append, loadCalls_load_cons, loadCalls_append,
        loadCalls_openedIterations, loadCalls_failedIteration, loadCalls_fprintf]
      omega
  · intro p q hp hq
    obtain ⟨hp1, hp2⟩ := mem_handedBuffers_main w argv p hp
    obtain ⟨hq1, hq2⟩ := mem_handedBuffers_main w argv q hq
    have h1 : p.1 = q.1 := Option.some.inj (hp1.symm.trans hq1)
    exact Prod.ext h1 (by rw [hp2, hq2, h1])
  · rcases main_cases w argv with ⟨_, he⟩ | ⟨_, _, he⟩ | ⟨d, _, _, _, he⟩ | ⟨d, k, _, _, _, _, _, he⟩
    · rw [he]; simp [parseCalls]
    · rw [he]; simp [parseCalls]
    · rw [he]; intro _
      exact ⟨_, rfl, loadCalls_openedIterations d _⟩
    · rw [he]; intro _
      refine ⟨openedIterations d k ++ failedIteration w d k
        ++ [Event.fprintf .stderr (parseFailureMessage (argv.get 1))], by simp, ?_⟩
      simp only [loadCalls_append, loadCalls_openedIterations, loadCalls_failedIteration,
        loadCalls_fprintf]

/-- C8: in every run something is written to `stderr` exactly when the returned
status is non-zero, nothing is ever written to `stdout`, and when the file loaded
and the status is non-zero (an iteration failed) the last text written to `stderr`
is the diagnostic of `main` that contains `argv[1]`. -/
theorem main_diagnostics (w : World) (argv : Argv) :
    (written .stderr (main w argv).2.trace ≠ [] ↔ (main w argv).1 ≠ 0) ∧
    written .stdout (main w argv).2.trace = [] ∧
    (∀ d, ¬ argv.argc < 3 → loaded w argv = some d → (main w argv).1 ≠ 0 →
      (written .stderr (main w argv).2.trace).getLast?
        = some ("Failed to create property list from file " ++ argv.get 1 ++ "\n")) := by
  rcases main_cases w argv with ⟨ha, he⟩ | ⟨_, hl, he⟩ | ⟨d, _, _, _, he⟩ |
    ⟨d, k, _, _, _, _, _, he⟩
  · rw [he]
    refine ⟨by simp [written], by simp [written], fun d h => absurd ha h⟩
  · rw [he]
    refine ⟨by simp [written], by simp [written], fun d _ hd => ?_⟩
    rw [hl] at hd; cases hd
  · rw [he]
    simp only [written_load_cons, written_openedIterations]
    refine ⟨by simp, trivial, fun d _ _ h => absurd rfl h⟩
  · rw [he]
    simp only [written_stderr_first, written_stdout_first]
    refine ⟨by simp, trivial, fun _ _ _ _ => ?_⟩
    simp [parseFailureMessage]

/-- C9: when the file loads and `<times>` converts to a negative number, the run is
the run for `times = 0`: the only action is the load, no parse call is made, nothing
is written to `stderr` and the status is 0.  In every run the number of parse calls
is at most `max(times, 0)`. -/
theorem main_negative_times (w : World) (argv : Argv) :
    (∀ d, ¬ argv.argc < 3 → loaded w argv = some d → w.strtol (argv.get 2) < 0 →
      main w argv = main { w with strtol := fun _ => 0 } argv ∧
      (main w argv).2.trace = [.urlCreateData ⟨argv.get 1⟩] ∧
      parseCalls (main w argv).2.trace = 0 ∧
      deserializerCalls (main w argv).2.trace = 0 ∧
      written .stderr (main w argv).2.trace = [] ∧
      (main w argv).1 = 0) ∧
    (parseCalls (main w argv).2.trace : Int) ≤ max (w.strtol (argv.get 2)) 0 := by
  constructor
  · intro d ha hl hneg
    have h0 : (w.strtol (argv.get 2)).toNat = 0 := by omega
    have he := main_all w argv d ha hl (fun j hj => by omega)
    have he0 := main_all { w with strtol := fun _ => 0 } argv d ha hl
      (fun j hj => by simp at hj)
    rw [h0] at he
    rw [he0, he]
    simp [openedIterations, parseCalls, deserializerCalls, written]
  · rcases main_cases w argv with ⟨_, he⟩ | ⟨_, _, he⟩ | ⟨d, _, _, _, he⟩ |
      ⟨d, k, _, _, hk, _, _, he⟩
    · rw [he]; simp [parseCalls]
    · rw [he]; simp [parseCalls]
    · rw [he]; simp only [parseCalls_load_cons, parseCalls_openedIterations]; omega
    · rw [he, parseCalls_first]; omega

/-- C10: when the file loads and iteration `k` is the first to fail because its
stream does not open, `createPropertyListWithData` returns `NULL` there after the
stream creation, the open attempt and its diagnostic, without a deserializer call;
`main` returns -1 after `k + 1` parse calls and `k` deserializer calls, and `stderr`
holds exactly the two diagnostics, in that order. -/
theorem main_stream_open_failure (w : World) (argv : Argv) (d : CFData) (k : Nat)
    (hargc : ¬ argv.argc < 3) (hload : loaded w argv = some d)
    (hk : (k : Int) < w.strtol (argv.get 2))
    (hok : ∀ j, j < k → iterationSucceeds w d j = true)
    (hopen : w.CFReadStreamOpen k = false) :
    (∀ t c, createPropertyListWithData w d ⟨t, k, c⟩
      = (none, ⟨t ++ [.readStreamCreate d d.length, .readStreamOpen,
                      .fprintf .stderr "Failed to open resource\n"], k + 1, c⟩)) ∧
    (main w argv).1 = -1 ∧
    parseCalls (main w argv).2.trace = k + 1 ∧
    deserializerCalls (main w argv).2.trace = k ∧
    written .stderr (main w argv).2.trace
      = ["Failed to open resource\n",
         "Failed to create property list from file " ++ argv.get 1 ++ "\n"] := by
  have hf : iterationSucceeds w d k = false := by simp [iterationSucceeds, hopen]
  refine ⟨fun t c => createPropertyListWithData_unopened w d t k c hopen, ?_⟩
  rw [main_first w argv d k hargc hload (by omega) hok hf]
  simp only [parseCalls_first, deserializerCalls_first, written_stderr_first, hopen]
  simp [parseFailureMessage]

/-- C6, amended: with libc's `strtol`, for a `<times>` string that starts with
neither white space nor a sign and whose leading digit run fits a `long`, the
iteration count is the base-10 value of that run (0 when the run is empty): when
the file loads and all those iterations succeed `main` makes that many parse calls
and returns 0, and when the run is empty it makes none and returns 0. -/
theorem main_times_conversion (w : World) (argv : Argv) (d : CFData)
    (hstrtol : w.strtol = strtol) (hargc : ¬ argv.argc < 3) (hload : loaded w argv = some d)
    (hfirst : ∀ c, (argv.get 2).toList.head? = some c →
      isspace c = false ∧ c.toNat ≠ 43 ∧ c.toNat ≠ 45)
    (hrange : (leadingDigitsValue (argv.get 2) : Int) ≤ LONG_MAX) :
    w.strtol (argv.get 2) = leadingDigitsValue (argv.get 2) ∧
    ((∀ j, j < leadingDigitsValue (argv.get 2) → iterationSucceeds w d j = true) →
      parseCalls (main w argv).2.trace = leadingDigitsValue (argv.get 2) ∧
      (main w argv).1 = 0) ∧
    (leadingDigits (argv.get 2) = [] →
      parseCalls (main w argv).2.trace = 0 ∧ (main w argv).1 = 0) := by
  have hv : w.strtol (argv.get 2) = leadingDigitsValue (argv.get 2) := by
    rw [hstrtol]; exact strtol_eq_leadingDigitsValue _ hfirst hrange
  have hn : (w.strtol (argv.get 2)).toNat = leadingDigitsValue (argv.get 2) := by
    rw [hv]; exact Int.toNat_natCast _
  refine ⟨hv, fun hok => ?_, fun hnil => ?_⟩
  · rw [main_all w argv d hargc hload (fun j hj => hok j (by omega))]
    simp only [parseCalls_load_cons, parseCalls_openedIterations]
    exact ⟨hn, trivial⟩
  · have h0 : leadingDigitsValue (argv.get 2) = 0 := by
      simp [leadingDigitsValue, hnil, digitsValue]
    rw [main_all w argv d hargc hload (fun j hj => by omega)]
    simp only [parseCalls_load_cons, parseCalls_openedIterations]
    exact ⟨by omega, trivial⟩

/-! ## The claims at the sample inputs -/

/-- Scenario `prog valid.plist 5`: five parse calls, status 0. -/
theorem main_parses_N_times_witness :
    validFive.argc = 3 ∧ loaded sampleWorld validFive = some sampleBytes ∧
    sampleWorld.strtol (validFive.get 2) = 5 ∧
    (main sampleWorld validFive).1 = 0 ∧
    (parseCalls (main sampleWorld validFive).2.trace : Int) = 5 ∧
    (deserializerCalls (main sampleWorld validFive).2.trace : Int) = 5 :=
  have h := main_parses_N_times sampleWorld validFive sampleBytes 5
    (by decide) (by decide) (by decide) (by decide) (fun _ _ => rfl)
  ⟨by decide, by decide, by decide, h.1, h.2.1, h.2.2.1⟩

/-- Scenario `prog corrupt.plist 10`: the first iteration fails and is the only one. -/
theorem main_stops_at_first_failure_witness :
    loaded sampleWorld corruptTen = some truncatedBytes ∧
    iterationSucceeds sampleWorld truncatedBytes 0 = false ∧
    (main sampleWorld corruptTen).1 ≠ 0 ∧
    parseCalls (main sampleWorld corruptTen).2.trace = 1 :=
  have h := main_stops_at_first_failure sampleWorld corruptTen truncatedBytes 10 0
    (by decide) (by decide) (by decide) (by decide) (fun _ hj => absurd hj (Nat.not_lt_zero _))
    (by decide)
  ⟨by decide, by decide, h.1, h.2.1⟩

/-- Scenario `prog missing.plist 3`: the diagnostic names the path and nothing is parsed. -/
theorem main_load_failure_witness :
    loaded sampleWorld missingThree = none ∧
    (main sampleWorld missingThree).1 ≠ 0 ∧
    (∃ m, m ∈ written .stderr (main sampleWorld missingThree).2.trace ∧
      ∃ before after, m = before ++ "missing.plist" ++ after) ∧
    parseCalls (main sampleWorld missingThree).2.trace = 0 :=
  have h := main_load_failure sampleWorld missingThree (by decide) (by decide)
  ⟨by decide, h.1, h.2.1, h.2.2.1⟩

/-- Scenario `prog`: usage message, no load. -/
theorem main_usage_error_witness :
    noArguments.argc < 3 ∧
    written .stderr (main sampleWorld noArguments).2.trace
      = ["Usage: prog <filepath> <times>\n"] ∧
    (main sampleWorld noArguments).1 ≠ 0 ∧
    loadCalls (main sampleWorld noArguments).2.trace = 0 :=
  ⟨by decide, main_usage_error sampleWorld noArguments (by decide)⟩

/-- C4 as stated fails with four entries: the count is not 3, yet no usage message
is written, the loader is called and the run succeeds. -/
theorem main_four_entries_counterexample :
    fourEntries.argc ≠ 3 ∧
    loadCalls (main sampleWorld fourEntries).2.trace = 1 ∧
    written .stderr (main sampleWorld fourEntries).2.trace = [] ∧
    (main sampleWorld fourEntries).1 = 0 := by
  rw [main_all sampleWorld fourEntries sampleBytes (by decide) (by decide) (fun _ _ => rfl)]
  decide

/-- C6 as stated fails on `+2`: the string has no leading digit, so the stated rule
gives 0 iterations, yet `strtol` gives 2 and `main` makes two parse calls. -/
theorem main_signed_times_counterexample :
    leadingDigits (signedTwo.get 2) = [] ∧
    leadingDigitsValue (signedTwo.get 2) = 0 ∧
    sampleWorld.strtol (signedTwo.get 2) = 2 ∧
    loaded sampleWorld signedTwo = some sampleBytes ∧
    parseCalls (main sampleWorld signedTwo).2.trace = 2 := by
  rw [main_all sampleWorld signedTwo sampleBytes (by decide) (by decide) (fun _ _ => rfl)]
  decide

/-- Scenario `prog valid.plist 3x`: conversion stops at the letter, three parse calls. -/
theorem main_times_conversion_witness :
    leadingDigitsValue (threeThenLetter.get 2) = 3 ∧
    sampleWorld.strtol (threeThenLetter.get 2) = 3 ∧
    parseCalls (main sampleWorld threeThenLetter).2.trace = 3 ∧
    (main sampleWorld threeThenLetter).1 = 0 :=
  have h := main_times_conversion sampleWorld threeThenLetter sampleBytes rfl
    (by decide) (by decide)
    (fun c hc => by
      have h3 : some (Char.ofNat 51) = some c := hc
      cases h3; decide)
    (by decide)
  ⟨by decide, h.1, h.2.1 (fun _ _ => rfl)⟩

/-- Scenario `prog corrupt.plist 10`: the last diagnostic names the path. -/
theorem main_diagnostics_witness :
    loaded sampleWorld corruptTen = some truncatedBytes ∧
    (main sampleWorld corruptTen).1 ≠ 0 ∧
    (written .stderr (main sampleWorld corruptTen).2.trace).getLast?
      = some "Failed to create property list from file corrupt.plist\n" :=
  have hne : (main sampleWorld corruptTen).1 ≠ 0 := by
    rw [main_first sampleWorld corruptTen truncatedBytes 0 (by decide) (by decide) (by decide)
      (fun _ hj => absurd hj (Nat.not_lt_zero _)) (by decide)]
    decide
  ⟨by decide, hne,
    (main_diagnostics sampleWorld corruptTen).2.2 truncatedBytes (by decide) (by decide) hne⟩

/-- Scenario `prog valid.plist -5`: the load is the only action. -/
theorem main_negative_times_witness :
    loaded sampleWorld negativeFive = some sampleBytes ∧
    sampleWorld.strtol (negativeFive.get 2) = -5 ∧
    (main sampleWorld negativeFive).2.trace = [.urlCreateData ⟨"valid.plist"⟩] ∧
    parseCalls (main sampleWorld negativeFive).2.trace = 0 ∧
    (main sampleWorld negativeFive).1 = 0 :=
  have h := (main_negative_times sampleWorld negativeFive).1 sampleBytes
    (by decide) (by decide) (by decide)
  ⟨by decide, by decide, h.2.1, h.2.2.1, h.2.2.2.2.2⟩

/-- Scenario `prog valid.plist 5` when the third stream does not open. -/
theorem main_stream_open_failure_witness :
    loaded unopenableWorld validFive = some sampleBytes ∧
    unopenableWorld.CFReadStreamOpen 2 = false ∧
    (main unopenableWorld validFive).1 = -1 ∧
    parseCalls (main unopenableWorld validFive).2.trace = 3 ∧
    deserializerCalls (main unopenableWorld validFive).2.trace = 2 ∧
    written .stderr (main unopenableWorld validFive).2.trace
      = ["Failed to open resource\n",
         "Failed to create property list from file valid.plist\n"] :=
  have h := main_stream_open_failure unopenableWorld validFive sampleBytes 2
    (by decide) (by decide) (by decide) (fun j hj => by
      have hj2 : j = 0 ∨ j = 1 := by omega
      rcases hj2 with h0 | h1
      · subst h0; decide
      · subst h1; decide)
    (by decide)
  ⟨by decide, by decide, h.2.1, h.2.2.1, h.2.2.2.1, h.2.2.2.2⟩

end CoreFoundationParser
